import Mathlib

/-!
Verification of the AFM image-analysis correction pipeline
(`data_analysis.py` and the module-level script `AFM_image_analyser.py`).

Height grids are embedded as a shape `(nx, ny)` together with a total value
function `ℕ → ℕ → ℚ`; only indices `i < nx`, `j < ny` are meaningful, and the
list view `Grid.toLists` restricts to them.  numpy floating point is embedded
as exact rational arithmetic.  A numpy operation that raises (shape-mismatch
broadcast, an out-of-range row index, `np.min` of an empty array) is embedded
as `Option.none`.

`np.linalg.lstsq` on the design matrix `[x_flat, y_flat, 1]` is embedded by
its closed-form ordinary-least-squares solution: the flattened design points
`(k % nx, k / nx)` enumerate the full product grid `[0,nx) × [0,ny)`, on which
the centred x column, the centred y column and the constant column are
mutually orthogonal, so the projection coefficients decouple
(`planeCoeffs_minimize` below proves they minimise the sum of squares).
When a centred column is identically zero (`nx = 1` or `ny = 1`) the rational
convention `q / 0 = 0` makes that column's coefficient `0`, which is exactly
the minimum-norm solution `lstsq` returns for the rank-deficient system.
The same applies to the per-row line fit `z = m·x + q` of
`line_drift_subtraction` (`rowFit_minimize` below).
-/

namespace AFM

/-- Python's `str.lower()` on the ASCII setting strings: lower-case each
character. -/
def pyLower (s : String) : String := ⟨s.data.map Char.toLower⟩

/-- A 2-d numpy height array: shape `(nx, ny)` and the entries, as a total
function (entries outside the shape are junk and never observed). -/
@[ext]
structure Grid where
  nx : ℕ
  ny : ℕ
  val : ℕ → ℕ → ℚ

/-- The grid's rows as lists, restricted to the shape: the observable content
of the numpy array. -/
def Grid.toLists (g : Grid) : List (List ℚ) :=
  (List.range g.nx).map (fun i => (List.range g.ny).map (fun j => g.val i j))

/-! ### common_plane_subtraction (data_analysis.py lines 25-35)

`x_ax = arange(nx)`, `y_ax = arange(ny)`, `X, Y = np.meshgrid(x_ax, y_ax)`
(default `indexing='xy'`, so `X` and `Y` have shape `(ny, nx)` with
`X[r][s] = s`, `Y[r][s] = r`), `x_flat = X.ravel()`, `y_flat = Y.ravel()`,
`z_flat = height_values.ravel()`.  The flat index `k` therefore carries
`x_flat[k] = k % nx`, `y_flat[k] = k / nx`, while
`z_flat[k] = height_values[k / ny][k % ny]`. -/

/-- Number of flattened sample points, `nx * ny`. -/
def planeN (g : Grid) : ℕ := g.nx * g.ny

/-- `x_flat[k] = X.ravel()[k] = k % nx` (as a rational). -/
def flatX (g : Grid) (k : ℕ) : ℚ := (k % g.nx : ℕ)

/-- `y_flat[k] = Y.ravel()[k] = k / nx` (as a rational). -/
def flatY (g : Grid) (k : ℕ) : ℚ := (k / g.nx : ℕ)

/-- `z_flat[k] = height_values.ravel()[k] = height_values[k / ny][k % ny]`. -/
def flatZ (g : Grid) (k : ℕ) : ℚ := g.val (k / g.ny) (k % g.ny)

/-- Mean of the `x_flat` column. -/
def planeXbar (g : Grid) : ℚ := (∑ k in Finset.range (planeN g), flatX g k) / (planeN g)

/-- Mean of the `y_flat` column. -/
def planeYbar (g : Grid) : ℚ := (∑ k in Finset.range (planeN g), flatY g k) / (planeN g)

/-- Mean of the `z_flat` data. -/
def planeZbar (g : Grid) : ℚ := (∑ k in Finset.range (planeN g), flatZ g k) / (planeN g)

/-- Sum of squares of the centred `x_flat` column. -/
def planeSxx (g : Grid) : ℚ := ∑ k in Finset.range (planeN g), (flatX g k - planeXbar g) ^ 2

/-- Sum of squares of the centred `y_flat` column. -/
def planeSyy (g : Grid) : ℚ := ∑ k in Finset.range (planeN g), (flatY g k - planeYbar g) ^ 2

/-- Inner product of the centred `x_flat` column with the data. -/
def planeNumA (g : Grid) : ℚ :=
  ∑ k in Finset.range (planeN g), (flatX g k - planeXbar g) * flatZ g k

/-- Inner product of the centred `y_flat` column with the data. -/
def planeNumB (g : Grid) : ℚ :=
  ∑ k in Finset.range (planeN g), (flatY g k - planeYbar g) * flatZ g k

/-- The `a` returned by `np.linalg.lstsq([x_flat, y_flat, 1], z_flat)`. -/
def planeA (g : Grid) : ℚ := planeNumA g / planeSxx g

/-- The `b` returned by `np.linalg.lstsq([x_flat, y_flat, 1], z_flat)`. -/
def planeB (g : Grid) : ℚ := planeNumB g / planeSyy g

/-- The `c` returned by `np.linalg.lstsq([x_flat, y_flat, 1], z_flat)`. -/
def planeC (g : Grid) : ℚ := planeZbar g - planeA g * planeXbar g - planeB g * planeYbar g

/-- The residual of the plane fit at flattened sample `k`. -/
def planeResid (g : Grid) (k : ℕ) : ℚ :=
  flatZ g k - (planeA g * flatX g k + planeB g * flatY g k + planeC g)

/-- The sum of squared errors of a candidate plane `z = a·x + b·y + c` over
the flattened samples: what `np.linalg.lstsq` minimises. -/
def planeSqErr (g : Grid) (a b c : ℚ) : ℚ :=
  ∑ k in Finset.range (planeN g), (flatZ g k - (a * flatX g k + b * flatY g k + c)) ^ 2

/-- The value of `height_values - (a*X + b*Y + c)` when `nx = ny` (then the
shapes `(nx, ny)` and `(ny, nx)` agree and no broadcasting happens):
`X[i][j] = j` and `Y[i][j] = i`. -/
def planeCorrected (g : Grid) : Grid :=
  ⟨g.nx, g.ny, fun i j => g.val i j - (planeA g * j + planeB g * i + planeC g)⟩

/-- `common_plane_subtraction`: fit the plane and return
`height_values - (a*X + b*Y + c)`.  `height_values` has shape `(nx, ny)` while
`a*X + b*Y + c` has shape `(ny, nx)`; numpy broadcasting makes the subtraction
defined exactly when `nx = ny`, `nx = 1` or `ny = 1` (otherwise a
`ValueError`, embedded as `none`).  In the `nx = 1` case the plane column is
`a*X[i][0] + b*Y[i][0] + c = a*0 + b*i + c` and broadcasting gives an
`(ny, ny)` result; `ny = 1` is symmetric. -/
def common_plane_subtraction (g : Grid) : Option Grid :=
  if g.nx = g.ny then
    some (planeCorrected g)
  else if g.nx = 1 then
    some ⟨g.ny, g.ny, fun i j => g.val 0 j - (planeA g * 0 + planeB g * i + planeC g)⟩
  else if g.ny = 1 then
    some ⟨g.nx, g.nx, fun i j => g.val i 0 - (planeA g * j + planeB g * 0 + planeC g)⟩
  else none

/-! ### Row operations (data_analysis.py lines 37-60)

Both drift routines loop `for y in y_ax` with `y_ax = arange(ny)` and index
`height_values[y]`, i.e. they use the second-axis length to enumerate rows of
the first axis. -/

/-- `np.mean(height_values[y])`: the arithmetic mean of row `i` (a row has
`ny` entries). -/
def rowMean (g : Grid) (i : ℕ) : ℚ := (∑ j in Finset.range g.ny, g.val i j) / g.ny

/-- Mean of `x_ax = arange(nx)`, used by the per-row line fit. -/
def rowXbar (g : Grid) : ℚ := (∑ j in Finset.range g.nx, (j : ℚ)) / g.nx

/-- Sum of squares of the centred `x_ax`. -/
def rowSxx (g : Grid) : ℚ := ∑ j in Finset.range g.nx, ((j : ℚ) - rowXbar g) ^ 2

/-- Inner product of the centred `x_ax` with row `i` of the data. -/
def rowNum (g : Grid) (i : ℕ) : ℚ :=
  ∑ j in Finset.range g.nx, ((j : ℚ) - rowXbar g) * g.val i j

/-- The slope `m` returned by `np.linalg.lstsq([x_ax, 1], height_values[i])`. -/
def rowSlope (g : Grid) (i : ℕ) : ℚ := rowNum g i / rowSxx g

/-- The intercept `q` returned by `np.linalg.lstsq([x_ax, 1], height_values[i])`. -/
def rowIntercept (g : Grid) (i : ℕ) : ℚ := rowMean g i - rowSlope g i * rowXbar g

/-- The residual of the line fit of row `i` at column `j`. -/
def rowResid (g : Grid) (i j : ℕ) : ℚ :=
  g.val i j - (rowSlope g i * j + rowIntercept g i)

/-- The sum of squared errors of a candidate line `z = m·x + q` over row `i`:
what the per-row `np.linalg.lstsq` minimises. -/
def rowSqErr (g : Grid) (i : ℕ) (m q : ℚ) : ℚ :=
  ∑ j in Finset.range g.nx, (g.val i j - (m * j + q)) ^ 2

/-- The grid after the `mean_drift_subtraction` loop body ran for rows
`0 ≤ i < ny` (each such row has its mean subtracted; rows `ny ≤ i < nx`, when
any, are left untouched by the loop). -/
def meanCorrected (g : Grid) : Grid :=
  ⟨g.nx, g.ny, fun i j => if i < g.ny then g.val i j - rowMean g i else g.val i j⟩

/-- `mean_drift_subtraction`: loop `for y in range(ny)` and replace
`height_values[y]` by `height_values[y] - np.mean(height_values[y])`.
When `ny > nx` the loop reaches `y = nx` and `height_values[y]` raises an
`IndexError`, embedded as `none`. -/
def mean_drift_subtraction (g : Grid) : Option Grid :=
  if g.ny ≤ g.nx then some (meanCorrected g) else none

/-- The grid after the `line_drift_subtraction` loop body ran for rows
`0 ≤ i < ny`: row `i` becomes `row - (m*x_ax + q)` with `(m, q)` the row's
least-squares line fit. -/
def lineCorrected (g : Grid) : Grid :=
  ⟨g.nx, g.ny, fun i j =>
    if i < g.ny then g.val i j - (rowSlope g i * j + rowIntercept g i) else g.val i j⟩

/-- `line_drift_subtraction`: loop `for y in range(ny)`, fit
`np.linalg.lstsq(A, height_values[y])` with `A` built from `x_ax = arange(nx)`
and subtract `m*x_ax + q` from the row.  A row has `ny` entries while `A` has
`nx` rows, so unless `ny = 0` (the loop never runs) the first `lstsq` call
raises unless `nx = ny`; the mismatch is embedded as `none`. -/
def line_drift_subtraction (g : Grid) : Option Grid :=
  if g.ny = 0 then some g
  else if g.nx = g.ny then some (lineCorrected g)
  else none

/-! ### Vertical shift (data_analysis.py lines 62-103) -/

/-- All entries of the grid, flattened. -/
def gridEntries (g : Grid) : List ℚ :=
  ((List.range g.nx).map (fun i => (List.range g.ny).map (fun j => g.val i j))).flatten

/-- `np.min(height_values)`: `none` exactly on an empty array (numpy raises a
`ValueError` there). -/
def npMin (g : Grid) : Option ℚ := (gridEntries g).min?

/-- `shift_min`: subtract the global minimum from every entry. -/
def shift_min (g : Grid) : Option Grid :=
  match npMin g with
  | none => none
  | some m => some ⟨g.nx, g.ny, fun i j => g.val i j - m⟩

/-- `np.mean(height_values)`: the global arithmetic mean. -/
def gridMean (g : Grid) : ℚ :=
  (∑ i in Finset.range g.nx, ∑ j in Finset.range g.ny, g.val i j) / (g.nx * g.ny)

/-- `shift_mean`: subtract the global mean from every entry.  On an empty
array `np.mean` yields `nan`, which has no rational counterpart; that case is
embedded as `none`. -/
def shift_mean (g : Grid) : Option Grid :=
  if g.nx = 0 ∨ g.ny = 0 then none
  else some ⟨g.nx, g.ny, fun i j => g.val i j - gridMean g⟩

/-! ### The driver script (AFM_image_analyser.py)

The module-level code validates and dispatches on the three settings strings,
in order: `common_plane_subtraction`, `line_drift_correction`, `data_shift`,
then calls the two plot functions.  A failed check `raise`s a `TypeError`
whose message is recorded here verbatim; an exception aborts the run before
anything later executes. -/

/-- The three `settings.json` fields the pipeline reads. -/
structure Settings where
  common_plane_subtraction : String
  line_drift_correction : String
  data_shift : String

/-- How a run aborts: a `TypeError` raised by settings validation (with its
message), or an exception raised inside a numpy correction step. -/
inductive PipeError where
  | config : String → PipeError
  | numeric : PipeError

/-- The observable outcome of a completed run: the final grid, the
`warnings.warn` channel, the module-level `warning_list`, and the plot calls
made. -/
structure RunState where
  grid : Grid
  warnChannel : List String
  warnLog : List String
  renders : List String

/-- The `TypeError` message for an invalid `common_plane_subtraction`. -/
def cpsErrMsg : String :=
  "Variable inserted for 'common_plane_subtraction' in settings.json is not valid. Please insert 'yes' or 'no' (variable is not case-sensitive)."

/-- The `TypeError` message for an invalid `line_drift_correction` (the code
names the field `'linear_drift_subtraction'` and offers `'yes' or 'no'`). -/
def driftErrMsg : String :=
  "Variable inserted for 'linear_drift_subtraction' in settings.json is not valid. Please insert 'yes' or 'no' (variable is not case-sensitive)."

/-- The `TypeError` message for an invalid `data_shift`. -/
def shiftErrMsg : String :=
  "Variable inserted for 'data_shift' in settings.json is not valid. Please insert 'minimum' or 'mean' (variable is not case-sensitive)."

/-- The text passed to `warnings.warn` in the auto-fallback branches. -/
def autoWarnText : String :=
  "Linear drift correction was requested without plane subtraction. Common plane subtraction has been applied automatically to ensure accuracy."

/-- The string appended to `warning_list` in the auto-fallback branches. -/
def autoWarnLogText : String :=
  "UserWarning: Linear drift correction was requested without plane subtraction. Common plane subtraction has been applied automatically to ensure accuracy."

/-- A numpy step either returns a grid or raises (`.numeric`). -/
def liftStep (r : Option Grid) : Except PipeError Grid :=
  match r with
  | some g => .ok g
  | none => .error .numeric

/-- The first `if` block: optional plane subtraction, validating the field. -/
def planeStage (s : Settings) (g : Grid) : Except PipeError Grid :=
  if pyLower s.common_plane_subtraction = "yes" then
    liftStep (common_plane_subtraction g)
  else if pyLower s.common_plane_subtraction = "no" then .ok g
  else .error (.config cpsErrMsg)

/-- The auto-fallback branch shared verbatim by the `"linear"` and `"mean"`
cases: plane subtraction, then the linear row fit, then the warning on both
channels. -/
def driftFallback (g : Grid) : Except PipeError (Grid × List String × List String) :=
  match common_plane_subtraction g with
  | none => .error .numeric
  | some g1 =>
    match line_drift_subtraction g1 with
    | none => .error .numeric
    | some g2 => .ok (g2, [autoWarnText], [autoWarnLogText])

/-- The second `if` block: drift correction, validating the field.  Returns
the grid together with what was emitted on the `warnings.warn` channel and
appended to `warning_list`. -/
def driftStage (s : Settings) (g : Grid) : Except PipeError (Grid × List String × List String) :=
  if pyLower s.line_drift_correction = "linear" then
    if pyLower s.common_plane_subtraction = "yes" then
      (liftStep (line_drift_subtraction g)).map (fun h => (h, [], []))
    else driftFallback g
  else if pyLower s.line_drift_correction = "mean" then
    if pyLower s.common_plane_subtraction = "yes" then
      (liftStep (mean_drift_subtraction g)).map (fun h => (h, [], []))
    else driftFallback g
  else if pyLower s.line_drift_correction = "no" then .ok (g, [], [])
  else .error (.config driftErrMsg)

/-- The third `if` block: the vertical shift, validating the field. -/
def shiftStage (s : Settings) (g : Grid) : Except PipeError Grid :=
  if pyLower s.data_shift = "minimum" then liftStep (shift_min g)
  else if pyLower s.data_shift = "mean" then liftStep (shift_mean g)
  else .error (.config shiftErrMsg)

/-- The tail of the run from the vertical-shift stage on: shift, then the two
plot calls. -/
def finishRun (s : Settings) (g : Grid) (wc wl : List String) : Except PipeError RunState :=
  match shiftStage s g with
  | .error e => .error e
  | .ok h => .ok ⟨h, wc, wl, ["plot_2d_image", "plot_3d_image"]⟩

/-- The whole module-level script on a loaded grid: the three stages in
order, then rendering. -/
def runProgram (s : Settings) (g : Grid) : Except PipeError RunState :=
  match planeStage s g with
  | .error e => .error e
  | .ok g1 =>
    match driftStage s g1 with
    | .error e => .error e
    | .ok (g2, wc, wl) => finishRun s g2 wc wl

/-- The plot calls a run performed: none when the run aborted (the `raise`
happens before `plot_2d_image` / `plot_3d_image`). -/
def rendersOf (r : Except PipeError RunState) : List String :=
  match r with
  | .ok st => st.renders
  | .error _ => []

/-- A run that aborted with a settings-validation `TypeError`. -/
def isConfigError (r : Except PipeError RunState) : Prop :=
  ∃ m, r = .error (.config m)

/-! ### Concrete inputs used to settle the claims -/

/-- The constant 2×2 grid `[[1, 1], [1, 1]]`. -/
def gOnes : Grid := ⟨2, 2, fun _ _ => 1⟩

/-- The 1×2 grid `[[1, 3]]`. -/
def gOneTwo : Grid := ⟨1, 2, fun _ j => if j = 0 then 1 else 3⟩

/-- The 2×1 grid `[[1], [3]]`. -/
def gTwoOne : Grid := ⟨2, 1, fun i _ => if i = 0 then 1 else 3⟩

/-- The 1×2 grid `[[0, 1]]`. -/
def gRow01 : Grid := ⟨1, 2, fun _ j => (j : ℚ)⟩

/-- The 2×2 grid `[[0, 1], [-1, 0]]` (what the broadcast in
`common_plane_subtraction` turns `gRow01` into). -/
def gAnti : Grid := ⟨2, 2, fun i j => (j : ℚ) - (i : ℚ)⟩

/-- The all-zero 2×2 grid. -/
def gZero2 : Grid := ⟨2, 2, fun _ _ => 0⟩

/-- The 1×1 grid `[[5]]`. -/
def gFive : Grid := ⟨1, 1, fun _ _ => 5⟩

/-- The 1×1 grid `[[0]]`. -/
def gZero : Grid := ⟨1, 1, fun _ _ => 0⟩

/-- Settings requesting linear drift correction without plane subtraction. -/
def sFallback : Settings := ⟨"no", "linear", "minimum"⟩

/-- Settings requesting mean drift correction without plane subtraction. -/
def sFallbackMean : Settings := ⟨"no", "mean", "minimum"⟩

/-- Settings with an unrecognised `line_drift_correction` value. -/
def sBadDrift : Settings := ⟨"no", "bogus", "minimum"⟩

/-- Settings with an unrecognised `data_shift` value. -/
def sBadShift : Settings := ⟨"yes", "no", "Invalid"⟩

/-! ### Sums over the flattened product grid -/

/-- A sum over `Finset.range (m * n)` split into `m` consecutive blocks of
length `n`. -/
theorem sum_range_mul (m n : ℕ) (f : ℕ → ℚ) :
    ∑ k in Finset.range (m * n), f k
      = ∑ i in Finset.range m, ∑ j in Finset.range n, f (n * i + j) := by
  induction m with
  | zero => simp
  | succ m ih =>
    have hrange : Finset.range ((m + 1) * n)
        = Finset.range (m * n) ∪ Finset.map (addLeftEmbedding (m * n)) (Finset.range n) := by
      rw [Nat.succ_mul, Finset.range_add]
    have hdisj : Disjoint (Finset.range (m * n))
        (Finset.map (addLeftEmbedding (m * n)) (Finset.range n)) := by
      rw [Finset.disjoint_left]
      intro a ha hb
      rw [Finset.mem_map] at hb
      obtain ⟨b, _, hb⟩ := hb
      rw [Finset.mem_range] at ha
      have hle : m * n ≤ a := hb ▸ Nat.le_add_right _ _
      omega
    rw [hrange, Finset.sum_union hdisj, ih, Finset.sum_range_succ, Finset.sum_map]
    congr 1
    refine Finset.sum_congr rfl fun j _ => ?_
    have happ : addLeftEmbedding (m * n) j = m * n + j := rfl
    rw [happ, mul_comm n m]

/-- The flattened design points `(k % nx, k / nx)` of an `nx × ny` grid
enumerate the product grid, so a sum over them is a double sum. -/
theorem sum_mod_div (nx ny : ℕ) (F : ℕ → ℕ → ℚ) :
    ∑ k in Finset.range (nx * ny), F (k % nx) (k / nx)
      = ∑ i in Finset.range ny, ∑ j in Finset.range nx, F j i := by
  rw [mul_comm nx ny, sum_range_mul]
  refine Finset.sum_congr rfl fun i _ => Finset.sum_congr rfl fun j hj => ?_
  have hj' : j < nx := Finset.mem_range.mp hj
  have hx : 0 < nx := lt_of_le_of_lt (Nat.zero_le j) hj'
  rw [Nat.mul_add_mod, Nat.mod_eq_of_lt hj', Nat.mul_add_div hx, Nat.div_eq_of_lt hj',
    Nat.add_zero]

/-! ### Generic centred-column identities -/

/-- A column minus its mean sums to zero. -/
theorem sum_sub_mean (s : Finset ℕ) (f : ℕ → ℚ) (hs : (s.card : ℚ) ≠ 0) :
    ∑ k in s, (f k - (∑ j in s, f j) / s.card) = 0 := by
  rw [Finset.sum_sub_distrib, Finset.sum_const, nsmul_eq_mul]
  field_simp

/-- Against its own centred version, a column behaves like the centred sum of
squares. -/
theorem sum_center_mul_self (s : Finset ℕ) (f : ℕ → ℚ) (c : ℚ)
    (h : ∑ k in s, (f k - c) = 0) :
    ∑ k in s, (f k - c) * f k = ∑ k in s, (f k - c) ^ 2 := by
  calc ∑ k in s, (f k - c) * f k
      = ∑ k in s, ((f k - c) ^ 2 + c * (f k - c)) :=
        Finset.sum_congr rfl fun k _ => by ring
    _ = ∑ k in s, (f k - c) ^ 2 + c * ∑ k in s, (f k - c) := by
        rw [Finset.sum_add_distrib, Finset.mul_sum]
    _ = ∑ k in s, (f k - c) ^ 2 := by rw [h, mul_zero, add_zero]

/-- A centred column with zero sum of squares is identically zero, so its
inner product with any data vanishes. -/
theorem sum_center_mul_of_sq_zero (s : Finset ℕ) (f z : ℕ → ℚ) (c : ℚ)
    (h : ∑ k in s, (f k - c) ^ 2 = 0) :
    ∑ k in s, (f k - c) * z k = 0 := by
  have h0 : ∀ k ∈ s, f k - c = 0 := fun k hk =>
    sq_eq_zero_iff.mp ((Finset.sum_eq_zero_iff_of_nonneg fun i _ => sq_nonneg _).mp h k hk)
  exact Finset.sum_eq_zero fun k hk => by rw [h0 k hk, zero_mul]

/-- `num - (num / S) * S = 0` whenever `S = 0` forces `num = 0`: the single
cancellation used for a fitted coefficient, covering the rank-deficient case
through the rational convention `num / 0 = 0`. -/
theorem sub_div_mul_cancel (S num : ℚ) (h : S = 0 → num = 0) :
    num - num / S * S = 0 := by
  rcases eq_or_ne S 0 with hS | hS
  · rw [hS, mul_zero, h hS, sub_zero]
  · field_simp

/-! ### The plane fit: column sums and residual orthogonality -/

theorem sum_flatX (g : Grid) :
    ∑ k in Finset.range (planeN g), flatX g k
      = (g.ny : ℚ) * ∑ j in Finset.range g.nx, (j : ℚ) := by
  have h := sum_mod_div g.nx g.ny (fun j _ => (j : ℚ))
  simp only [planeN, flatX]
  rw [h, Finset.sum_const, Finset.card_range, nsmul_eq_mul]

theorem sum_flatY (g : Grid) :
    ∑ k in Finset.range (planeN g), flatY g k
      = (g.nx : ℚ) * ∑ i in Finset.range g.ny, (i : ℚ) := by
  have h := sum_mod_div g.nx g.ny (fun _ i => (i : ℚ))
  simp only [planeN, flatY]
  rw [h]
  calc ∑ i in Finset.range g.ny, ∑ _j in Finset.range g.nx, (i : ℚ)
      = ∑ i in Finset.range g.ny, (g.nx : ℚ) * (i : ℚ) := by
        refine Finset.sum_congr rfl fun i _ => ?_
        rw [Finset.sum_const, Finset.card_range, nsmul_eq_mul]
    _ = (g.nx : ℚ) * ∑ i in Finset.range g.ny, (i : ℚ) := by rw [Finset.mul_sum]

theorem sum_flatX_mul_flatY (g : Grid) :
    ∑ k in Finset.range (planeN g), flatX g k * flatY g k
      = (∑ j in Finset.range g.nx, (j : ℚ)) * ∑ i in Finset.range g.ny, (i : ℚ) := by
  have h := sum_mod_div g.nx g.ny (fun j i => (j : ℚ) * (i : ℚ))
  simp only [planeN, flatX, flatY]
  rw [h]
  calc ∑ i in Finset.range g.ny, ∑ j in Finset.range g.nx, (j : ℚ) * (i : ℚ)
      = ∑ i in Finset.range g.ny, (∑ j in Finset.range g.nx, (j : ℚ)) * (i : ℚ) := by
        refine Finset.sum_congr rfl fun i _ => ?_
        rw [Finset.sum_mul]
    _ = (∑ j in Finset.range g.nx, (j : ℚ)) * ∑ i in Finset.range g.ny, (i : ℚ) := by
        rw [Finset.mul_sum]

theorem planeN_cast_ne_zero (g : Grid) (hx : g.nx ≠ 0) (hy : g.ny ≠ 0) :
    ((planeN g : ℕ) : ℚ) ≠ 0 := by
  simp only [planeN]
  exact_mod_cast mul_ne_zero hx hy

/-- The centred `x_flat` column sums to zero. -/
theorem sum_center_flatX (g : Grid) (hN : ((planeN g : ℕ) : ℚ) ≠ 0) :
    ∑ k in Finset.range (planeN g), (flatX g k - planeXbar g) = 0 := by
  have h := sum_sub_mean (Finset.range (planeN g)) (flatX g)
    (by rwa [Finset.card_range])
  simpa [planeXbar, Finset.card_range] using h

/-- The centred `y_flat` column sums to zero. -/
theorem sum_center_flatY (g : Grid) (hN : ((planeN g : ℕ) : ℚ) ≠ 0) :
    ∑ k in Finset.range (planeN g), (flatY g k - planeYbar g) = 0 := by
  have h := sum_sub_mean (Finset.range (planeN g)) (flatY g)
    (by rwa [Finset.card_range])
  simpa [planeYbar, Finset.card_range] using h

theorem sum_center_flatX_mul_flatX (g : Grid) (hN : ((planeN g : ℕ) : ℚ) ≠ 0) :
    ∑ k in Finset.range (planeN g), (flatX g k - planeXbar g) * flatX g k = planeSxx g :=
  (sum_center_mul_self _ _ _ (sum_center_flatX g hN)).trans rfl

theorem sum_center_flatY_mul_flatY (g : Grid) (hN : ((planeN g : ℕ) : ℚ) ≠ 0) :
    ∑ k in Finset.range (planeN g), (flatY g k - planeYbar g) * flatY g k = planeSyy g :=
  (sum_center_mul_self _ _ _ (sum_center_flatY g hN)).trans rfl

/-- Orthogonality of the two centred coordinate columns over the product
grid: the centred `x_flat` column is orthogonal to `y_flat`. -/
theorem sum_center_flatX_mul_flatY (g : Grid) (hx : g.nx ≠ 0) (hy : g.ny ≠ 0) :
    ∑ k in Finset.range (planeN g), (flatX g k - planeXbar g) * flatY g k = 0 := by
  have e : ∀ k, (flatX g k - planeXbar g) * flatY g k
      = flatX g k * flatY g k - planeXbar g * flatY g k := fun k => by ring
  rw [Finset.sum_congr rfl fun k _ => e k, Finset.sum_sub_distrib, ← Finset.mul_sum,
    sum_flatX_mul_flatY, sum_flatY, planeXbar, sum_flatX, planeN]
  have hx' : (g.nx : ℚ) ≠ 0 := Nat.cast_ne_zero.mpr hx
  have hy' : (g.ny : ℚ) ≠ 0 := Nat.cast_ne_zero.mpr hy
  field_simp
  ring

/-- Orthogonality the other way around: the centred `y_flat` column is
orthogonal to `x_flat`. -/
theorem sum_center_flatY_mul_flatX (g : Grid) (hx : g.nx ≠ 0) (hy : g.ny ≠ 0) :
    ∑ k in Finset.range (planeN g), (flatY g k - planeYbar g) * flatX g k = 0 := by
  have e : ∀ k, (flatY g k - planeYbar g) * flatX g k
      = flatX g k * flatY g k - planeYbar g * flatX g k := fun k => by ring
  rw [Finset.sum_congr rfl fun k _ => e k, Finset.sum_sub_distrib, ← Finset.mul_sum,
    sum_flatX_mul_flatY, sum_flatX, planeYbar, sum_flatY, planeN]
  have hx' : (g.nx : ℚ) ≠ 0 := Nat.cast_ne_zero.mpr hx
  have hy' : (g.ny : ℚ) ≠ 0 := Nat.cast_ne_zero.mpr hy
  field_simp
  ring

theorem planeNumA_eq_zero_of_sxx (g : Grid) (h : planeSxx g = 0) : planeNumA g = 0 :=
  sum_center_mul_of_sq_zero _ _ _ _ h

theorem planeNumB_eq_zero_of_syy (g : Grid) (h : planeSyy g = 0) : planeNumB g = 0 :=
  sum_center_mul_of_sq_zero _ _ _ _ h

/-- The plane-fit residual is orthogonal to the centred `x_flat` column. -/
theorem sum_center_flatX_mul_resid (g : Grid) (hx : g.nx ≠ 0) (hy : g.ny ≠ 0) :
    ∑ k in Finset.range (planeN g), (flatX g k - planeXbar g) * planeResid g k = 0 := by
  have hN := planeN_cast_ne_zero g hx hy
  have e : ∀ k, (flatX g k - planeXbar g) * planeResid g k
      = (flatX g k - planeXbar g) * flatZ g k
        - planeA g * ((flatX g k - planeXbar g) * flatX g k)
        - planeB g * ((flatX g k - planeXbar g) * flatY g k)
        - planeC g * (flatX g k - planeXbar g) := fun k => by
    simp only [planeResid]; ring
  rw [Finset.sum_congr rfl fun k _ => e k, Finset.sum_sub_distrib, Finset.sum_sub_distrib,
    Finset.sum_sub_distrib, ← Finset.mul_sum, ← Finset.mul_sum, ← Finset.mul_sum,
    sum_center_flatX_mul_flatX g hN, sum_center_flatX_mul_flatY g hx hy,
    sum_center_flatX g hN, mul_zero, mul_zero, sub_zero, sub_zero]
  simp only [planeA]
  exact sub_div_mul_cancel _ _ (planeNumA_eq_zero_of_sxx g)

/-- The plane-fit residual is orthogonal to the centred `y_flat` column. -/
theorem sum_center_flatY_mul_resid (g : Grid) (hx : g.nx ≠ 0) (hy : g.ny ≠ 0) :
    ∑ k in Finset.range (planeN g), (flatY g k - planeYbar g) * planeResid g k = 0 := by
  have hN := planeN_cast_ne_zero g hx hy
  have e : ∀ k, (flatY g k - planeYbar g) * planeResid g k
      = (flatY g k - planeYbar g) * flatZ g k
        - planeA g * ((flatY g k - planeYbar g) * flatX g k)
        - planeB g * ((flatY g k - planeYbar g) * flatY g k)
        - planeC g * (flatY g k - planeYbar g) := fun k => by
    simp only [planeResid]; ring
  rw [Finset.sum_congr rfl fun k _ => e k, Finset.sum_sub_distrib, Finset.sum_sub_distrib,
    Finset.sum_sub_distrib, ← Finset.mul_sum, ← Finset.mul_sum, ← Finset.mul_sum,
    sum_center_flatY_mul_flatY g hN, sum_center_flatY_mul_flatX g hx hy,
    sum_center_flatY g hN]
  simp only [mul_zero, sub_zero]
  simp only [planeB]
  exact sub_div_mul_cancel _ _ (planeNumB_eq_zero_of_syy g)

/-- The plane-fit residual sums to zero. -/
theorem sum_resid (g : Grid) (hx : g.nx ≠ 0) (hy : g.ny ≠ 0) :
    ∑ k in Finset.range (planeN g), planeResid g k = 0 := by
  have hN := planeN_cast_ne_zero g hx hy
  have e : ∀ k, planeResid g k
      = flatZ g k - planeA g * flatX g k - planeB g * flatY g k - planeC g := fun k => by
    simp only [planeResid]; ring
  rw [Finset.sum_congr rfl fun k _ => e k, Finset.sum_sub_distrib, Finset.sum_sub_distrib,
    Finset.sum_sub_distrib, ← Finset.mul_sum, ← Finset.mul_sum, Finset.sum_const,
    Finset.card_range, nsmul_eq_mul]
  simp only [planeC, planeZbar, planeXbar, planeYbar]
  field_simp

/-- The embedded `lstsq` coefficients minimise the sum of squared errors of
the plane over the flattened samples: `(planeA, planeB, planeC)` really is a
least-squares solution of the system the source builds. -/
theorem planeCoeffs_minimize (g : Grid) (hx : g.nx ≠ 0) (hy : g.ny ≠ 0) (a b c : ℚ) :
    planeSqErr g (planeA g) (planeB g) (planeC g) ≤ planeSqErr g a b c := by
  have hN := planeN_cast_ne_zero g hx hy
  have hresidX : ∑ k in Finset.range (planeN g), planeResid g k * flatX g k = 0 := by
    have e : ∀ k, planeResid g k * flatX g k
        = (flatX g k - planeXbar g) * planeResid g k + planeXbar g * planeResid g k :=
      fun k => by ring
    rw [Finset.sum_congr rfl fun k _ => e k, Finset.sum_add_distrib, ← Finset.mul_sum,
      sum_center_flatX_mul_resid g hx hy, sum_resid g hx hy, mul_zero, add_zero]
  have hresidY : ∑ k in Finset.range (planeN g), planeResid g k * flatY g k = 0 := by
    have e : ∀ k, planeResid g k * flatY g k
        = (flatY g k - planeYbar g) * planeResid g k + planeYbar g * planeResid g k :=
      fun k => by ring
    rw [Finset.sum_congr rfl fun k _ => e k, Finset.sum_add_distrib, ← Finset.mul_sum,
      sum_center_flatY_mul_resid g hx hy, sum_resid g hx hy, mul_zero, add_zero]
  have expand : planeSqErr g a b c
      = planeSqErr g (planeA g) (planeB g) (planeC g)
        + ∑ k in Finset.range (planeN g),
            ((planeA g - a) * flatX g k + (planeB g - b) * flatY g k + (planeC g - c)) ^ 2
        + (2 * (planeA g - a) * ∑ k in Finset.range (planeN g), planeResid g k * flatX g k
          + 2 * (planeB g - b) * ∑ k in Finset.range (planeN g), planeResid g k * flatY g k
          + 2 * (planeC g - c) * ∑ k in Finset.range (planeN g), planeResid g k) := by
    simp only [planeSqErr, Finset.mul_sum, ← Finset.sum_add_distrib]
    refine Finset.sum_congr rfl fun k _ => ?_
    simp only [planeResid]
    ring
  rw [expand, hresidX, hresidY, sum_resid g hx hy, mul_zero, mul_zero, mul_zero,
    add_zero, add_zero, add_zero]
  exact le_add_of_nonneg_right (Finset.sum_nonneg fun k _ => sq_nonneg _)

/-! ### Idempotence of the plane subtraction on square grids -/

@[simp] theorem planeCorrected_nx (g : Grid) : (planeCorrected g).nx = g.nx := rfl

@[simp] theorem planeCorrected_ny (g : Grid) : (planeCorrected g).ny = g.ny := rfl

theorem planeN_planeCorrected (g : Grid) : planeN (planeCorrected g) = planeN g := rfl

theorem flatX_planeCorrected (g : Grid) : flatX (planeCorrected g) = flatX g := rfl

theorem flatY_planeCorrected (g : Grid) : flatY (planeCorrected g) = flatY g := rfl

theorem planeXbar_planeCorrected (g : Grid) : planeXbar (planeCorrected g) = planeXbar g := rfl

theorem planeYbar_planeCorrected (g : Grid) : planeYbar (planeCorrected g) = planeYbar g := rfl

theorem planeSxx_planeCorrected (g : Grid) : planeSxx (planeCorrected g) = planeSxx g := rfl

theorem planeSyy_planeCorrected (g : Grid) : planeSyy (planeCorrected g) = planeSyy g := rfl

/-- On a square grid the flattened data of the corrected grid is exactly the
fit residual: the x/y index swap hidden in the meshgrid pairing cancels when
`nx = ny`. -/
theorem flatZ_planeCorrected (g : Grid) (hsq : g.nx = g.ny) (k : ℕ) :
    flatZ (planeCorrected g) k = planeResid g k := by
  simp only [flatZ, planeCorrected, planeResid, flatX, flatY, hsq]

theorem planeNumA_planeCorrected (g : Grid) (hx : g.nx ≠ 0) (hy : g.ny ≠ 0)
    (hsq : g.nx = g.ny) : planeNumA (planeCorrected g) = 0 := by
  unfold planeNumA
  rw [planeN_planeCorrected, flatX_planeCorrected, planeXbar_planeCorrected]
  calc ∑ k in Finset.range (planeN g), (flatX g k - planeXbar g) * flatZ (planeCorrected g) k
      = ∑ k in Finset.range (planeN g), (flatX g k - planeXbar g) * planeResid g k :=
        Finset.sum_congr rfl fun k _ => by rw [flatZ_planeCorrected g hsq k]
    _ = 0 := sum_center_flatX_mul_resid g hx hy

theorem planeNumB_planeCorrected (g : Grid) (hx : g.nx ≠ 0) (hy : g.ny ≠ 0)
    (hsq : g.nx = g.ny) : planeNumB (planeCorrected g) = 0 := by
  unfold planeNumB
  rw [planeN_planeCorrected, flatY_planeCorrected, planeYbar_planeCorrected]
  calc ∑ k in Finset.range (planeN g), (flatY g k - planeYbar g) * flatZ (planeCorrected g) k
      = ∑ k in Finset.range (planeN g), (flatY g k - planeYbar g) * planeResid g k :=
        Finset.sum_congr rfl fun k _ => by rw [flatZ_planeCorrected g hsq k]
    _ = 0 := sum_center_flatY_mul_resid g hx hy

theorem planeA_planeCorrected (g : Grid) (hx : g.nx ≠ 0) (hy : g.ny ≠ 0)
    (hsq : g.nx = g.ny) : planeA (planeCorrected g) = 0 := by
  unfold planeA
  rw [planeNumA_planeCorrected g hx hy hsq, zero_div]

theorem planeB_planeCorrected (g : Grid) (hx : g.nx ≠ 0) (hy : g.ny ≠ 0)
    (hsq : g.nx = g.ny) : planeB (planeCorrected g) = 0 := by
  unfold planeB
  rw [planeNumB_planeCorrected g hx hy hsq, zero_div]

theorem planeZbar_planeCorrected (g : Grid) (hx : g.nx ≠ 0) (hy : g.ny ≠ 0)
    (hsq : g.nx = g.ny) : planeZbar (planeCorrected g) = 0 := by
  unfold planeZbar
  rw [planeN_planeCorrected]
  have h : ∑ k in Finset.range (planeN g), flatZ (planeCorrected g) k
      = ∑ k in Finset.range (planeN g), planeResid g k :=
    Finset.sum_congr rfl fun k _ => flatZ_planeCorrected g hsq k
  rw [h, sum_resid g hx hy, zero_div]

theorem planeC_planeCorrected (g : Grid) (hx : g.nx ≠ 0) (hy : g.ny ≠ 0)
    (hsq : g.nx = g.ny) : planeC (planeCorrected g) = 0 := by
  unfold planeC
  rw [planeZbar_planeCorrected g hx hy hsq, planeA_planeCorrected g hx hy hsq,
    planeB_planeCorrected g hx hy hsq, zero_mul, zero_mul, sub_zero, sub_zero]

/-- Correcting an already corrected square grid subtracts the zero plane. -/
theorem planeCorrected_idem (g : Grid) (hx : g.nx ≠ 0) (hy : g.ny ≠ 0)
    (hsq : g.nx = g.ny) : planeCorrected (planeCorrected g) = planeCorrected g := by
  have ha := planeA_planeCorrected g hx hy hsq
  have hb := planeB_planeCorrected g hx hy hsq
  have hc := planeC_planeCorrected g hx hy hsq
  refine Grid.ext rfl rfl ?_
  funext i j
  show (planeCorrected g).val i j
      - (planeA (planeCorrected g) * j + planeB (planeCorrected g) * i
        + planeC (planeCorrected g))
    = (planeCorrected g).val i j
  rw [ha, hb, hc]
  simp

/-- The square-shape branch of `common_plane_subtraction`. -/
theorem cps_square (g : Grid) (hsq : g.nx = g.ny) :
    common_plane_subtraction g = some (planeCorrected g) := by
  unfold common_plane_subtraction
  rw [if_pos hsq]

/-! ### The per-row line fit -/

theorem sum_center_rowIdx (g : Grid) (hx : (g.nx : ℚ) ≠ 0) :
    ∑ j in Finset.range g.nx, ((j : ℚ) - rowXbar g) = 0 := by
  have h := sum_sub_mean (Finset.range g.nx) (fun j => (j : ℚ))
    (by rwa [Finset.card_range])
  simpa [rowXbar, Finset.card_range] using h

theorem sum_center_rowIdx_mul_idx (g : Grid) (hx : (g.nx : ℚ) ≠ 0) :
    ∑ j in Finset.range g.nx, ((j : ℚ) - rowXbar g) * (j : ℚ) = rowSxx g :=
  (sum_center_mul_self _ _ _ (sum_center_rowIdx g hx)).trans rfl

theorem rowNum_eq_zero_of_sxx (g : Grid) (i : ℕ) (h : rowSxx g = 0) : rowNum g i = 0 :=
  sum_center_mul_of_sq_zero _ _ _ _ h

/-- The row-fit residual is orthogonal to the centred index column. -/
theorem sum_center_mul_rowResid (g : Grid) (i : ℕ) (hx : (g.nx : ℚ) ≠ 0) :
    ∑ j in Finset.range g.nx, ((j : ℚ) - rowXbar g) * rowResid g i j = 0 := by
  have e : ∀ j : ℕ, ((j : ℚ) - rowXbar g) * rowResid g i j
      = ((j : ℚ) - rowXbar g) * g.val i j
        - rowSlope g i * (((j : ℚ) - rowXbar g) * (j : ℚ))
        - rowIntercept g i * ((j : ℚ) - rowXbar g) := fun j => by
    simp only [rowResid]; ring
  rw [Finset.sum_congr rfl fun j _ => e j, Finset.sum_sub_distrib, Finset.sum_sub_distrib,
    ← Finset.mul_sum, ← Finset.mul_sum, sum_center_rowIdx_mul_idx g hx,
    sum_center_rowIdx g hx, mul_zero, sub_zero]
  simp only [rowSlope]
  exact sub_div_mul_cancel _ _ (rowNum_eq_zero_of_sxx g i)

/-- The row-fit residual sums to zero on square grids (where the row mean in
the intercept runs over as many entries as the fit). -/
theorem sum_rowResid (g : Grid) (i : ℕ) (hsq : g.nx = g.ny) (hx : (g.nx : ℚ) ≠ 0) :
    ∑ j in Finset.range g.nx, rowResid g i j = 0 := by
  have e : ∀ j : ℕ, rowResid g i j
      = g.val i j - rowSlope g i * (j : ℚ) - rowIntercept g i := fun j => by
    simp only [rowResid]; ring
  rw [Finset.sum_congr rfl fun j _ => e j, Finset.sum_sub_distrib, Finset.sum_sub_distrib,
    ← Finset.mul_sum, Finset.sum_const, Finset.card_range, nsmul_eq_mul]
  simp only [rowIntercept, rowMean, rowXbar, ← hsq]
  field_simp

/-- The embedded per-row `lstsq` coefficients minimise the row's sum of
squared errors. -/
theorem rowFit_minimize (g : Grid) (i : ℕ) (hsq : g.nx = g.ny) (hx : (g.nx : ℚ) ≠ 0)
    (m q : ℚ) : rowSqErr g i (rowSlope g i) (rowIntercept g i) ≤ rowSqErr g i m q := by
  have hresidX : ∑ j in Finset.range g.nx, rowResid g i j * (j : ℚ) = 0 := by
    have e : ∀ j : ℕ, rowResid g i j * (j : ℚ)
        = ((j : ℚ) - rowXbar g) * rowResid g i j + rowXbar g * rowResid g i j :=
      fun j => by ring
    rw [Finset.sum_congr rfl fun j _ => e j, Finset.sum_add_distrib, ← Finset.mul_sum,
      sum_center_mul_rowResid g i hx, sum_rowResid g i hsq hx, mul_zero, add_zero]
  have expand : rowSqErr g i m q
      = rowSqErr g i (rowSlope g i) (rowIntercept g i)
        + ∑ j in Finset.range g.nx,
            ((rowSlope g i - m) * (j : ℚ) + (rowIntercept g i - q)) ^ 2
        + (2 * (rowSlope g i - m) * ∑ j in Finset.range g.nx, rowResid g i j * (j : ℚ)
          + 2 * (rowIntercept g i - q) * ∑ j in Finset.range g.nx, rowResid g i j) := by
    simp only [rowSqErr, Finset.mul_sum, ← Finset.sum_add_distrib]
    refine Finset.sum_congr rfl fun j _ => ?_
    simp only [rowResid]
    ring
  rw [expand, hresidX, sum_rowResid g i hsq hx, mul_zero, mul_zero, add_zero, add_zero]
  exact le_add_of_nonneg_right (Finset.sum_nonneg fun j _ => sq_nonneg _)

/-! ### Drift corrections on square grids and their fixed points -/

@[simp] theorem lineCorrected_nx (g : Grid) : (lineCorrected g).nx = g.nx := rfl

@[simp] theorem lineCorrected_ny (g : Grid) : (lineCorrected g).ny = g.ny := rfl

@[simp] theorem meanCorrected_nx (g : Grid) : (meanCorrected g).nx = g.nx := rfl

@[simp] theorem meanCorrected_ny (g : Grid) : (meanCorrected g).ny = g.ny := rfl

theorem rowXbar_lineCorrected (g : Grid) : rowXbar (lineCorrected g) = rowXbar g := rfl

theorem rowSxx_lineCorrected (g : Grid) : rowSxx (lineCorrected g) = rowSxx g := rfl

theorem lineCorrected_val_of_lt (g : Grid) (i j : ℕ) (hi : i < g.ny) :
    (lineCorrected g).val i j = rowResid g i j := by
  simp [lineCorrected, rowResid, hi]

theorem lineCorrected_val_of_ge (g : Grid) (i j : ℕ) (hi : ¬i < g.ny) :
    (lineCorrected g).val i j = g.val i j := by
  simp [lineCorrected, hi]

/-- After the linear row fit, every corrected row has mean exactly zero. -/
theorem rowMean_lineCorrected (g : Grid) (i : ℕ) (hsq : g.nx = g.ny) (hi : i < g.ny)
    (hx : (g.nx : ℚ) ≠ 0) : rowMean (lineCorrected g) i = 0 := by
  show (∑ j in Finset.range g.ny, (lineCorrected g).val i j) / (g.ny : ℚ) = 0
  have h1 : ∑ j in Finset.range g.ny, (lineCorrected g).val i j
      = ∑ j in Finset.range g.nx, rowResid g i j := by
    rw [← hsq]
    exact Finset.sum_congr rfl fun j _ => lineCorrected_val_of_lt g i j hi
  rw [h1, sum_rowResid g i hsq hx, zero_div]

theorem rowNum_lineCorrected (g : Grid) (i : ℕ) (hi : i < g.ny)
    (hx : (g.nx : ℚ) ≠ 0) : rowNum (lineCorrected g) i = 0 := by
  show ∑ j in Finset.range g.nx, ((j : ℚ) - rowXbar g) * (lineCorrected g).val i j = 0
  have h1 : ∑ j in Finset.range g.nx, ((j : ℚ) - rowXbar g) * (lineCorrected g).val i j
      = ∑ j in Finset.range g.nx, ((j : ℚ) - rowXbar g) * rowResid g i j :=
    Finset.sum_congr rfl fun j _ => by rw [lineCorrected_val_of_lt g i j hi]
  rw [h1, sum_center_mul_rowResid g i hx]

/-- After the linear row fit, every corrected row has best-fit slope exactly
zero. -/
theorem rowSlope_lineCorrected (g : Grid) (i : ℕ) (hi : i < g.ny)
    (hx : (g.nx : ℚ) ≠ 0) : rowSlope (lineCorrected g) i = 0 := by
  show rowNum (lineCorrected g) i / rowSxx (lineCorrected g) = 0
  rw [rowNum_lineCorrected g i hi hx, zero_div]

theorem rowIntercept_lineCorrected (g : Grid) (i : ℕ) (hsq : g.nx = g.ny) (hi : i < g.ny)
    (hx : (g.nx : ℚ) ≠ 0) : rowIntercept (lineCorrected g) i = 0 := by
  show rowMean (lineCorrected g) i - rowSlope (lineCorrected g) i * rowXbar (lineCorrected g) = 0
  rw [rowMean_lineCorrected g i hsq hi hx, rowSlope_lineCorrected g i hi hx, zero_mul,
    sub_zero]

/-- Refitting the corrected rows subtracts the zero line. -/
theorem lineCorrected_idem (g : Grid) (hsq : g.nx = g.ny) (hx : (g.nx : ℚ) ≠ 0) :
    lineCorrected (lineCorrected g) = lineCorrected g := by
  refine Grid.ext rfl rfl ?_
  funext i j
  show (if i < g.ny then (lineCorrected g).val i j
      - (rowSlope (lineCorrected g) i * j + rowIntercept (lineCorrected g) i)
    else (lineCorrected g).val i j) = (lineCorrected g).val i j
  by_cases hi : i < g.ny
  · rw [if_pos hi, rowSlope_lineCorrected g i hi hx, rowIntercept_lineCorrected g i hsq hi hx,
      zero_mul, zero_add, sub_zero]
  · rw [if_neg hi]

/-- Subtracting the (zero) row means of the line-corrected grid changes
nothing. -/
theorem meanCorrected_lineCorrected (g : Grid) (hsq : g.nx = g.ny) (hx : (g.nx : ℚ) ≠ 0) :
    meanCorrected (lineCorrected g) = lineCorrected g := by
  refine Grid.ext rfl rfl ?_
  funext i j
  show (if i < g.ny then (lineCorrected g).val i j - rowMean (lineCorrected g) i
    else (lineCorrected g).val i j) = (lineCorrected g).val i j
  by_cases hi : i < g.ny
  · rw [if_pos hi, rowMean_lineCorrected g i hsq hi hx, sub_zero]
  · rw [if_neg hi]

/-- On a square grid `line_drift_subtraction` completes and corrects every
row. -/
theorem line_drift_square (g : Grid) (hsq : g.nx = g.ny) :
    line_drift_subtraction g = some (lineCorrected g) := by
  unfold line_drift_subtraction
  rcases eq_or_ne g.ny 0 with h0 | h0
  · rw [if_pos h0]
    refine congrArg some (Grid.ext rfl rfl ?_)
    funext i j
    show g.val i j = (lineCorrected g).val i j
    rw [lineCorrected_val_of_ge g i j (by omega)]
  · rw [if_neg h0, if_pos hsq]

theorem mean_drift_of_le (g : Grid) (h : g.ny ≤ g.nx) :
    mean_drift_subtraction g = some (meanCorrected g) := by
  unfold mean_drift_subtraction
  rw [if_pos h]

/-! ### The vertical shift -/

/-- Subtracting a constant from every entry commutes with taking the list
minimum. -/
theorem min?_map_sub (l : List ℚ) (m : ℚ) :
    (l.map fun x => x - m).min? = l.min?.map fun x => x - m := by
  induction l with
  | nil => rfl
  | cons a as ih =>
    simp only [List.map_cons, List.min?_cons]
    rw [ih]
    cases h : as.min? with
    | none => simp
    | some b => simp [min_sub_sub_right]

theorem gridEntries_map_sub (g : Grid) (m : ℚ) :
    gridEntries ⟨g.nx, g.ny, fun i j => g.val i j - m⟩
      = (gridEntries g).map fun x => x - m := by
  simp only [gridEntries, List.map_flatten, List.map_map]
  refine congrArg List.flatten (List.map_congr_left fun i _ => ?_)
  simp [Function.comp, List.map_map]

theorem gridEntries_length (g : Grid) : (gridEntries g).length = g.nx * g.ny := by
  simp only [gridEntries, List.length_flatten, List.map_map]
  have h : (List.range g.nx).map
        (List.length ∘ fun i => (List.range g.ny).map fun j => g.val i j)
      = (List.range g.nx).map fun _ => g.ny := by
    refine List.map_congr_left fun i _ => ?_
    simp
  rw [h, List.map_const', List.sum_replicate, List.length_range, smul_eq_mul]

/-- `shift_min` on a non-empty grid: it succeeds, keeps the shape, and the
shifted grid has minimum exactly `0`. -/
theorem shift_min_spec (g : Grid) (hx : 1 ≤ g.nx) (hy : 1 ≤ g.ny) :
    ∃ H, shift_min g = some H ∧ H.nx = g.nx ∧ H.ny = g.ny ∧ npMin H = some 0 := by
  rcases hmin : npMin g with _ | m
  · exfalso
    have hnil : gridEntries g = [] := List.min?_eq_none_iff.mp hmin
    have hlen := gridEntries_length g
    rw [hnil] at hlen
    simp at hlen
    omega
  · refine ⟨⟨g.nx, g.ny, fun i j => g.val i j - m⟩, ?_, rfl, rfl, ?_⟩
    · unfold shift_min
      rw [hmin]
    · show (gridEntries ⟨g.nx, g.ny, fun i j => g.val i j - m⟩).min? = some 0
      rw [gridEntries_map_sub, min?_map_sub]
      have hm : (gridEntries g).min? = some m := hmin
      rw [hm]
      simp

theorem shift_mean_some (g : Grid) (hx : 1 ≤ g.nx) (hy : 1 ≤ g.ny) :
    shift_mean g = some ⟨g.nx, g.ny, fun i j => g.val i j - gridMean g⟩ := by
  unfold shift_mean
  rw [if_neg (by omega)]

/-! ### Pipeline stage behaviour -/

theorem planeStage_yes (s : Settings) (g : Grid)
    (h : pyLower s.common_plane_subtraction = "yes") :
    planeStage s g = liftStep (common_plane_subtraction g) := by
  unfold planeStage
  rw [if_pos h]

theorem planeStage_no (s : Settings) (g : Grid)
    (h : pyLower s.common_plane_subtraction = "no") :
    planeStage s g = .ok g := by
  unfold planeStage
  rw [h, if_neg (by decide), if_pos rfl]

theorem planeStage_invalid (s : Settings) (g : Grid)
    (h1 : pyLower s.common_plane_subtraction ≠ "yes")
    (h2 : pyLower s.common_plane_subtraction ≠ "no") :
    planeStage s g = .error (.config cpsErrMsg) := by
  unfold planeStage
  rw [if_neg h1, if_neg h2]

theorem planeStage_ok (s : Settings) (g : Grid) (hsq : g.nx = g.ny)
    (hv : pyLower s.common_plane_subtraction = "yes"
        ∨ pyLower s.common_plane_subtraction = "no") :
    ∃ g1, planeStage s g = .ok g1 ∧ g1.nx = g.nx ∧ g1.ny = g.ny := by
  rcases hv with h | h
  · refine ⟨planeCorrected g, ?_, rfl, rfl⟩
    rw [planeStage_yes s g h, cps_square g hsq]
    rfl
  · exact ⟨g, planeStage_no s g h, rfl, rfl⟩

theorem driftFallback_square (g : Grid) (hsq : g.nx = g.ny) :
    driftFallback g
      = .ok (lineCorrected (planeCorrected g), [autoWarnText], [autoWarnLogText]) := by
  unfold driftFallback
  simp only [cps_square g hsq, line_drift_square (planeCorrected g) hsq]

theorem driftStage_fallback (s : Settings) (g : Grid)
    (hd : pyLower s.line_drift_correction = "linear"
        ∨ pyLower s.line_drift_correction = "mean")
    (hc : pyLower s.common_plane_subtraction = "no") :
    driftStage s g = driftFallback g := by
  have hcy : ¬pyLower s.common_plane_subtraction = "yes" := by rw [hc]; decide
  unfold driftStage
  rcases hd with h | h
  · rw [if_pos h, if_neg hcy]
  · have hnl : ¬pyLower s.line_drift_correction = "linear" := by rw [h]; decide
    rw [if_neg hnl, if_pos h, if_neg hcy]

theorem driftStage_invalid (s : Settings) (g : Grid)
    (h1 : pyLower s.line_drift_correction ≠ "linear")
    (h2 : pyLower s.line_drift_correction ≠ "mean")
    (h3 : pyLower s.line_drift_correction ≠ "no") :
    driftStage s g = .error (.config driftErrMsg) := by
  unfold driftStage
  rw [if_neg h1, if_neg h2, if_neg h3]

theorem driftStage_ok (s : Settings) (g : Grid) (hsq : g.nx = g.ny)
    (hv : pyLower s.line_drift_correction = "linear"
        ∨ pyLower s.line_drift_correction = "mean"
        ∨ pyLower s.line_drift_correction = "no") :
    ∃ g2 wc wl, driftStage s g = .ok (g2, wc, wl) ∧ g2.nx = g.nx ∧ g2.ny = g.ny := by
  rcases hv with h | h | h
  · by_cases hcy : pyLower s.common_plane_subtraction = "yes"
    · refine ⟨lineCorrected g, [], [], ?_, rfl, rfl⟩
      unfold driftStage
      rw [if_pos h, if_pos hcy, line_drift_square g hsq]
      rfl
    · refine ⟨lineCorrected (planeCorrected g), [autoWarnText], [autoWarnLogText],
        ?_, rfl, rfl⟩
      unfold driftStage
      rw [if_pos h, if_neg hcy, driftFallback_square g hsq]
  · have hnl : ¬pyLower s.line_drift_correction = "linear" := by rw [h]; decide
    by_cases hcy : pyLower s.common_plane_subtraction = "yes"
    · refine ⟨meanCorrected g, [], [], ?_, rfl, rfl⟩
      unfold driftStage
      rw [if_neg hnl, if_pos h, if_pos hcy, mean_drift_of_le g hsq.symm.le]
      rfl
    · refine ⟨lineCorrected (planeCorrected g), [autoWarnText], [autoWarnLogText],
        ?_, rfl, rfl⟩
      unfold driftStage
      rw [if_neg hnl, if_pos h, if_neg hcy, driftFallback_square g hsq]
  · have hnl : ¬pyLower s.line_drift_correction = "linear" := by rw [h]; decide
    have hnm : ¬pyLower s.line_drift_correction = "mean" := by rw [h]; decide
    refine ⟨g, [], [], ?_, rfl, rfl⟩
    unfold driftStage
    rw [if_neg hnl, if_neg hnm, if_pos h]

theorem shiftStage_invalid (s : Settings) (g : Grid)
    (h1 : pyLower s.data_shift ≠ "minimum") (h2 : pyLower s.data_shift ≠ "mean") :
    shiftStage s g = .error (.config shiftErrMsg) := by
  unfold shiftStage
  rw [if_neg h1, if_neg h2]

theorem shiftStage_ok (s : Settings) (g : Grid) (hx : 1 ≤ g.nx) (hy : 1 ≤ g.ny)
    (hv : pyLower s.data_shift = "minimum" ∨ pyLower s.data_shift = "mean") :
    ∃ h, shiftStage s g = .ok h := by
  rcases hv with h | h
  · obtain ⟨H, hH, _⟩ := shift_min_spec g hx hy
    refine ⟨H, ?_⟩
    unfold shiftStage
    rw [if_pos h, hH]
    rfl
  · have hn : ¬pyLower s.data_shift = "minimum" := by rw [h]; decide
    refine ⟨⟨g.nx, g.ny, fun i j => g.val i j - gridMean g⟩, ?_⟩
    unfold shiftStage
    rw [if_neg hn, if_pos h, shift_mean_some g hx hy]
    rfl

theorem runProgram_planeError (s : Settings) (g : Grid) (e : PipeError)
    (h : planeStage s g = .error e) : runProgram s g = .error e := by
  unfold runProgram
  simp only [h]

theorem runProgram_driftError (s : Settings) (g g1 : Grid) (e : PipeError)
    (h1 : planeStage s g = .ok g1) (h2 : driftStage s g1 = .error e) :
    runProgram s g = .error e := by
  unfold runProgram
  simp only [h1, h2]

theorem runProgram_eq_finish (s : Settings) (g g1 g2 : Grid) (wc wl : List String)
    (h1 : planeStage s g = .ok g1) (h2 : driftStage s g1 = .ok (g2, wc, wl)) :
    runProgram s g = finishRun s g2 wc wl := by
  unfold runProgram
  simp only [h1, h2]

theorem finishRun_shiftError (s : Settings) (g : Grid) (wc wl : List String)
    (e : PipeError) (h : shiftStage s g = .error e) :
    finishRun s g wc wl = .error e := by
  unfold finishRun
  simp only [h]

theorem finishRun_ok (s : Settings) (g : Grid) (wc wl : List String) (h' : Grid)
    (h : shiftStage s g = .ok h') :
    finishRun s g wc wl = .ok ⟨h', wc, wl, ["plot_2d_image", "plot_3d_image"]⟩ := by
  unfold finishRun
  simp only [h]

/-- The auto-fallback run: drift requested, plane subtraction set to `"no"`. -/
theorem runProgram_fallback (s : Settings) (g : Grid)
    (hd : pyLower s.line_drift_correction = "linear"
        ∨ pyLower s.line_drift_correction = "mean")
    (hc : pyLower s.common_plane_subtraction = "no") (hsq : g.nx = g.ny) :
    runProgram s g
      = finishRun s (lineCorrected (planeCorrected g)) [autoWarnText] [autoWarnLogText] :=
  runProgram_eq_finish s g g _ _ _ (planeStage_no s g hc)
    ((driftStage_fallback s g hd hc).trans (driftFallback_square g hsq))

/-! ### The claims -/

/-- C2: whenever drift correction is requested (`line_drift_correction` is
"linear" or "mean" case-insensitively) and `common_plane_subtraction` is
"no", the pipeline first applies `common_plane_subtraction` automatically and
then dispatches to the linear row-fit routine `line_drift_subtraction` — not
`mean_drift_subtraction` — regardless of the drift variant selected, before
the vertical-shift stage (`finishRun` starts with `shiftStage`). -/
theorem drift_fallback_dispatches_linear (s : Settings) (g : Grid)
    (hd : pyLower s.line_drift_correction = "linear"
        ∨ pyLower s.line_drift_correction = "mean")
    (hc : pyLower s.common_plane_subtraction = "no") (hsq : g.nx = g.ny) :
    common_plane_subtraction g = some (planeCorrected g) ∧
    line_drift_subtraction (planeCorrected g) = some (lineCorrected (planeCorrected g)) ∧
    runProgram s g
      = finishRun s (lineCorrected (planeCorrected g)) [autoWarnText] [autoWarnLogText] :=
  ⟨cps_square g hsq, line_drift_square (planeCorrected g) hsq,
    runProgram_fallback s g hd hc hsq⟩

/-- Witness for C2: the "mean" drift setting with plane subtraction "no", on
the 2×2 ones grid, still goes through `line_drift_subtraction`. -/
theorem drift_fallback_dispatches_linear_witness :
    (pyLower sFallbackMean.line_drift_correction = "linear"
        ∨ pyLower sFallbackMean.line_drift_correction = "mean") ∧
    pyLower sFallbackMean.common_plane_subtraction = "no" ∧
    gOnes.nx = gOnes.ny ∧
    (common_plane_subtraction gOnes = some (planeCorrected gOnes) ∧
      line_drift_subtraction (planeCorrected gOnes)
        = some (lineCorrected (planeCorrected gOnes)) ∧
      runProgram sFallbackMean gOnes
        = finishRun sFallbackMean (lineCorrected (planeCorrected gOnes))
            [autoWarnText] [autoWarnLogText]) :=
  ⟨Or.inr (by decide), by decide, rfl,
    drift_fallback_dispatches_linear sFallbackMean gOnes (Or.inr (by decide))
      (by decide) rfl⟩

/-- C3 (amended): in the auto-fallback branch exactly one warning with the
exact text is recorded on the live channel, and exactly one entry is appended
to the WarningLog, whose text is the same message prefixed with
"UserWarning: ". -/
theorem fallback_warning_recorded_once (s : Settings) (g : Grid)
    (hd : pyLower s.line_drift_correction = "linear"
        ∨ pyLower s.line_drift_correction = "mean")
    (hc : pyLower s.common_plane_subtraction = "no") (hsq : g.nx = g.ny)
    (h1 : 1 ≤ g.nx)
    (hs : pyLower s.data_shift = "minimum" ∨ pyLower s.data_shift = "mean") :
    ∃ st, runProgram s g = .ok st ∧ st.warnChannel = [autoWarnText] ∧
      st.warnLog = [autoWarnLogText] ∧
      autoWarnLogText = "UserWarning: " ++ autoWarnText := by
  have hrun := runProgram_fallback s g hd hc hsq
  obtain ⟨h', hsh⟩ := shiftStage_ok s (lineCorrected (planeCorrected g))
    (show 1 ≤ g.nx from h1) (show 1 ≤ g.ny by omega) hs
  refine ⟨⟨h', [autoWarnText], [autoWarnLogText], ["plot_2d_image", "plot_3d_image"]⟩,
    ?_, rfl, rfl, by decide⟩
  rw [hrun, finishRun_ok _ _ _ _ _ hsh]

/-- Witness for C3 on the 1×1 grid `[[5]]`. -/
theorem fallback_warning_recorded_once_witness :
    (pyLower sFallback.line_drift_correction = "linear"
        ∨ pyLower sFallback.line_drift_correction = "mean") ∧
    pyLower sFallback.common_plane_subtraction = "no" ∧
    gFive.nx = gFive.ny ∧ 1 ≤ gFive.nx ∧
    (pyLower sFallback.data_shift = "minimum" ∨ pyLower sFallback.data_shift = "mean") ∧
    (∃ st, runProgram sFallback gFive = .ok st ∧ st.warnChannel = [autoWarnText] ∧
      st.warnLog = [autoWarnLogText] ∧
      autoWarnLogText = "UserWarning: " ++ autoWarnText) :=
  ⟨Or.inl (by decide), by decide, rfl, by decide, Or.inl (by decide),
    fallback_warning_recorded_once sFallback gFive (Or.inl (by decide)) (by decide)
      rfl (by decide) (Or.inl (by decide))⟩

/-- C3 counterexample: at the concrete fallback run the WarningLog entry is
the warning text with a "UserWarning: " prefix, so it is not the exact
claimed text. -/
theorem warning_log_text_prefixed :
    (runProgram sFallback gFive).map (fun st => st.warnLog) = .ok [autoWarnLogText] ∧
    autoWarnLogText ≠ autoWarnText := by
  constructor
  · have hrun := runProgram_fallback sFallback gFive (Or.inl (by decide)) (by decide) rfl
    obtain ⟨h', hsh⟩ := shiftStage_ok sFallback (lineCorrected (planeCorrected gFive))
      (by decide) (by decide) (Or.inl (by decide))
    rw [hrun, finishRun_ok _ _ _ _ _ hsh]
    rfl
  · decide

/-- C6: a settings object with any of the three enumerated fields outside its
set (after case-insensitive comparison) makes the run abort with a
configuration `TypeError`, and neither renderer is invoked. -/
theorem invalid_setting_aborts_before_render (s : Settings) (g : Grid)
    (hsq : g.nx = g.ny)
    (hinv : ¬(pyLower s.common_plane_subtraction = "yes"
          ∨ pyLower s.common_plane_subtraction = "no")
      ∨ ¬(pyLower s.line_drift_correction = "linear"
          ∨ pyLower s.line_drift_correction = "mean"
          ∨ pyLower s.line_drift_correction = "no")
      ∨ ¬(pyLower s.data_shift = "minimum" ∨ pyLower s.data_shift = "mean")) :
    isConfigError (runProgram s g) ∧ rendersOf (runProgram s g) = [] := by
  suffices h : isConfigError (runProgram s g) by
    obtain ⟨m, hm⟩ := h
    refine ⟨⟨m, hm⟩, ?_⟩
    rw [hm]
    rfl
  by_cases hcv : pyLower s.common_plane_subtraction = "yes"
      ∨ pyLower s.common_plane_subtraction = "no"
  · obtain ⟨g1, hg1, hnx1, hny1⟩ := planeStage_ok s g hsq hcv
    have hsq1 : g1.nx = g1.ny := by omega
    by_cases hdv : pyLower s.line_drift_correction = "linear"
        ∨ pyLower s.line_drift_correction = "mean"
        ∨ pyLower s.line_drift_correction = "no"
    · obtain ⟨g2, wc, wl, hg2, hnx2, hny2⟩ := driftStage_ok s g1 hsq1 hdv
      have hsv : ¬(pyLower s.data_shift = "minimum" ∨ pyLower s.data_shift = "mean") := by
        rcases hinv with h | h | h
        · exact absurd hcv h
        · exact absurd hdv h
        · exact h
      push_neg at hsv
      refine ⟨shiftErrMsg, ?_⟩
      rw [runProgram_eq_finish s g g1 g2 wc wl hg1 hg2,
        finishRun_shiftError _ _ _ _ _ (shiftStage_invalid s g2 hsv.1 hsv.2)]
    · push_neg at hdv
      exact ⟨driftErrMsg, runProgram_driftError s g g1 _ hg1
        (driftStage_invalid s g1 hdv.1 hdv.2.1 hdv.2.2)⟩
  · push_neg at hcv
    exact ⟨cpsErrMsg, runProgram_planeError s g _ (planeStage_invalid s g hcv.1 hcv.2)⟩

/-- Witness for C6: `data_shift = "Invalid"` aborts before any render call. -/
theorem invalid_setting_aborts_before_render_witness :
    gOnes.nx = gOnes.ny ∧
    (¬(pyLower sBadShift.common_plane_subtraction = "yes"
          ∨ pyLower sBadShift.common_plane_subtraction = "no")
      ∨ ¬(pyLower sBadShift.line_drift_correction = "linear"
          ∨ pyLower sBadShift.line_drift_correction = "mean"
          ∨ pyLower sBadShift.line_drift_correction = "no")
      ∨ ¬(pyLower sBadShift.data_shift = "minimum"
          ∨ pyLower sBadShift.data_shift = "mean")) ∧
    (isConfigError (runProgram sBadShift gOnes) ∧
      rendersOf (runProgram sBadShift gOnes) = []) :=
  ⟨rfl, Or.inr (Or.inr (by decide)),
    invalid_setting_aborts_before_render sBadShift gOnes rfl (Or.inr (Or.inr (by decide)))⟩

/-- C7: an invalid `line_drift_correction` value terminates the run, but the
message names the field `'linear_drift_subtraction'` and offers the values
`'yes' or 'no'` — not the field `line_drift_correction` with its allowed
values linear, mean, no. -/
theorem drift_error_message_verbatim :
    runProgram sBadDrift gZero = .error (.config driftErrMsg) ∧
    driftErrMsg = "Variable inserted for 'linear_drift_subtraction' in settings.json is not valid. Please insert 'yes' or 'no' (variable is not case-sensitive)." :=
  ⟨runProgram_driftError sBadDrift gZero gZero _ (planeStage_no _ _ (by decide))
      (driftStage_invalid _ _ (by decide) (by decide) (by decide)), rfl⟩

/-- C8: on every non-empty grid `shift_min` succeeds, preserves the shape,
and produces a grid whose minimum element is exactly 0. -/
theorem shift_min_minimum_zero (g : Grid) (hx : 1 ≤ g.nx) (hy : 1 ≤ g.ny) :
    ∃ H, shift_min g = some H ∧ H.nx = g.nx ∧ H.ny = g.ny ∧ npMin H = some 0 :=
  shift_min_spec g hx hy

/-- Witness for C8 on the 2×2 ones grid. -/
theorem shift_min_minimum_zero_witness :
    1 ≤ gOnes.nx ∧ 1 ≤ gOnes.ny ∧
    (∃ H, shift_min gOnes = some H ∧ H.nx = gOnes.nx ∧ H.ny = gOnes.ny ∧
      npMin H = some 0) :=
  ⟨by decide, by decide, shift_min_minimum_zero gOnes (by decide) (by decide)⟩

/-- C9 (amended): `common_plane_subtraction` is exactly idempotent on every
non-empty square grid — the best-fit coefficients of a corrected square grid
are all zero, so a second application subtracts the zero plane. -/
theorem plane_subtraction_idempotent_square (g : Grid) (h1 : 1 ≤ g.nx)
    (hsq : g.nx = g.ny) :
    (common_plane_subtraction g).bind common_plane_subtraction
      = common_plane_subtraction g := by
  have hx : g.nx ≠ 0 := by omega
  have hy : g.ny ≠ 0 := by omega
  rw [cps_square g hsq]
  show common_plane_subtraction (planeCorrected g) = some (planeCorrected g)
  rw [cps_square (planeCorrected g) hsq, planeCorrected_idem g hx hy hsq]

/-- Witness for C9 on the 2×2 ones grid. -/
theorem plane_subtraction_idempotent_square_witness :
    1 ≤ gOnes.nx ∧ gOnes.nx = gOnes.ny ∧
    (common_plane_subtraction gOnes).bind common_plane_subtraction
      = common_plane_subtraction gOnes :=
  ⟨by decide, rfl, plane_subtraction_idempotent_square gOnes (by decide) rfl⟩

/-- C10: on a non-empty square grid `line_drift_subtraction` succeeds and
every row of its output has arithmetic mean exactly zero and best-fit slope
exactly zero, so a further `line_drift_subtraction` or
`mean_drift_subtraction` changes nothing. -/
theorem line_drift_rows_centered (g : Grid) (h1 : 1 ≤ g.nx) (hsq : g.nx = g.ny) :
    ∃ H, line_drift_subtraction g = some H ∧
      (∀ i < g.nx, rowMean H i = 0 ∧ rowSlope H i = 0) ∧
      line_drift_subtraction H = some H ∧ mean_drift_subtraction H = some H := by
  have hx : (g.nx : ℚ) ≠ 0 := Nat.cast_ne_zero.mpr (by omega)
  refine ⟨lineCorrected g, line_drift_square g hsq, ?_, ?_, ?_⟩
  · intro i hi
    have hi' : i < g.ny := by omega
    exact ⟨rowMean_lineCorrected g i hsq hi' hx, rowSlope_lineCorrected g i hi' hx⟩
  · rw [line_drift_square (lineCorrected g) hsq, lineCorrected_idem g hsq hx]
  · rw [mean_drift_of_le (lineCorrected g)
      (show (lineCorrected g).ny ≤ (lineCorrected g).nx from hsq.symm.le),
      meanCorrected_lineCorrected g hsq hx]

/-- Witness for C10 on the 2×2 ones grid. -/
theorem line_drift_rows_centered_witness :
    1 ≤ gOnes.nx ∧ gOnes.nx = gOnes.ny ∧
    (∃ H, line_drift_subtraction gOnes = some H ∧
      (∀ i < gOnes.nx, rowMean H i = 0 ∧ rowSlope H i = 0) ∧
      line_drift_subtraction H = some H ∧ mean_drift_subtraction H = some H) :=
  ⟨by decide, rfl, line_drift_rows_centered gOnes (by decide) rfl⟩

/-- C1: `common_plane_subtraction` subtracts the whole fitted plane including
the constant `c`, against its own docstring. On the constant grid
`[[1, 1], [1, 1]]` the fitted tilt is zero (`a = b = 0`), so the claimed
output equals the input `[[1, 1], [1, 1]]`, but the code returns the all-zero
grid: the mean offset is removed, not preserved. -/
theorem plane_subtraction_subtracts_constant :
    planeA gOnes = 0 ∧ planeB gOnes = 0 ∧
    (common_plane_subtraction gOnes).map Grid.toLists = some [[0, 0], [0, 0]] := by
  refine ⟨?_, ?_, ?_⟩
  · norm_num [planeA, planeNumA, planeSxx, planeXbar, flatX, flatZ, planeN, gOnes,
      Finset.sum_range_succ]
  · norm_num [planeB, planeNumB, planeSyy, planeYbar, flatY, flatZ, planeN, gOnes,
      Finset.sum_range_succ]
  · norm_num [common_plane_subtraction, planeCorrected, Grid.toLists, gOnes, planeA,
      planeB, planeC, planeNumA, planeNumB, planeXbar, planeYbar, planeZbar, planeSxx,
      planeSyy, flatX, flatY, flatZ, planeN, Finset.sum_range_succ, List.range_succ]

/-- C4: on the 1×2 grid `[[1, 3]]` the correction steps do not preserve the
shape: `mean_drift_subtraction` raises (the row loop runs over the second
axis and indexes row 1 of a 1-row grid) and `common_plane_subtraction`
broadcasts the mismatched `(2, 1)` plane against the `(1, 2)` grid into a
2×2 result. -/
theorem nonsquare_steps_break :
    mean_drift_subtraction gOneTwo = none ∧
    (common_plane_subtraction gOneTwo).map (fun h => (h.nx, h.ny)) = some (2, 2) := by
  constructor
  · unfold mean_drift_subtraction
    rw [if_neg (by decide)]
  · unfold common_plane_subtraction
    rw [if_neg (by decide), if_pos (by decide)]
    rfl

/-- C5: on the 2×1 grid `[[1], [3]]` the row loop of
`mean_drift_subtraction` runs only over `range ny = range 1`, so row 1 is
left uncorrected (the claim would give `[[0], [0]]`). -/
theorem mean_drift_skips_last_row :
    (mean_drift_subtraction gTwoOne).map Grid.toLists = some [[0], [3]] := by
  rw [mean_drift_of_le gTwoOne (by decide)]
  norm_num [meanCorrected, Grid.toLists, gTwoOne, rowMean, List.range_succ,
    Finset.sum_range_succ]

/-- C9 counterexample: on the non-square grid `[[0, 1]]` applying
`common_plane_subtraction` twice does not equal applying it once — the first
application broadcasts to the 2×2 grid `[[0, 1], [-1, 0]]` and the second
flattens that to zero. -/
theorem plane_subtraction_twice_differs :
    (common_plane_subtraction gRow01).map Grid.toLists = some [[0, 1], [-1, 0]] ∧
    ((common_plane_subtraction gRow01).bind common_plane_subtraction).map Grid.toLists
      = some [[0, 0], [0, 0]] ∧
    (common_plane_subtraction gRow01).bind common_plane_subtraction
      ≠ common_plane_subtraction gRow01 := by
  have ha : planeA gRow01 = 0 := by
    have hs : planeSxx gRow01 = 0 := by
      norm_num [planeSxx, planeXbar, flatX, planeN, gRow01, Finset.sum_range_succ]
    rw [planeA, hs, div_zero]
  have hb : planeB gRow01 = 1 := by
    norm_num [planeB, planeNumB, planeSyy, planeYbar, flatY, flatZ, planeN, gRow01,
      Finset.sum_range_succ]
  have hc : planeC gRow01 = 0 := by
    rw [planeC, ha, hb]
    norm_num [planeZbar, planeXbar, planeYbar, flatX, flatY, flatZ, planeN, gRow01,
      Finset.sum_range_succ]
  have h1 : common_plane_subtraction gRow01 = some gAnti := by
    unfold common_plane_subtraction
    rw [if_neg (by decide), if_pos (by decide)]
    refine congrArg some (Grid.ext rfl rfl ?_)
    funext i j
    show gRow01.val 0 j - (planeA gRow01 * 0 + planeB gRow01 * i + planeC gRow01)
      = gAnti.val i j
    rw [ha, hb, hc]
    show (j : ℚ) - (0 * 0 + 1 * i + 0) = (j : ℚ) - (i : ℚ)
    ring
  have hA : planeA gAnti = 1 := by
    norm_num [planeA, planeNumA, planeSxx, planeXbar, flatX, flatZ, planeN, gAnti,
      Finset.sum_range_succ]
  have hB : planeB gAnti = -1 := by
    norm_num [planeB, planeNumB, planeSyy, planeYbar, flatY, flatZ, planeN, gAnti,
      Finset.sum_range_succ]
  have hC : planeC gAnti = 0 := by
    rw [planeC, hA, hB]
    norm_num [planeZbar, planeXbar, planeYbar, flatX, flatY, flatZ, planeN, gAnti,
      Finset.sum_range_succ]
  have h2 : common_plane_subtraction gAnti = some gZero2 := by
    rw [cps_square gAnti rfl]
    refine congrArg some (Grid.ext rfl rfl ?_)
    funext i j
    show gAnti.val i j - (planeA gAnti * j + planeB gAnti * i + planeC gAnti)
      = gZero2.val i j
    rw [hA, hB, hC]
    show ((j : ℚ) - (i : ℚ)) - (1 * j + (-1) * i + 0) = 0
    ring
  have e1 : (common_plane_subtraction gRow01).map Grid.toLists
      = some [[0, 1], [-1, 0]] := by
    rw [h1]
    norm_num [Grid.toLists, gAnti, List.range_succ]
  have e2 : ((common_plane_subtraction gRow01).bind common_plane_subtraction).map
      Grid.toLists = some [[0, 0], [0, 0]] := by
    rw [h1]
    show (common_plane_subtraction gAnti).map Grid.toLists = some [[0, 0], [0, 0]]
    rw [h2]
    norm_num [Grid.toLists, gZero2, List.range_succ]
  refine ⟨e1, e2, fun heq => ?_⟩
  have h12 := congrArg (Option.map Grid.toLists) heq
  rw [e1, e2] at h12
  norm_num at h12

end AFM
